import Mathlib

/-!
Verification development for the local-file visual rendering pipeline.

The embedding models the two source modules:

* `core/visual_rendering.py`: `_resize_if_needed`, `render_image`,
  `convert_pdf_to_images`, `render_document_page`.
* `system/local_tools.py`: `get_local_file_visual`.

External collaborators (PIL codec, pdf2image rasterizer, WeasyPrint
HTML-to-PDF typesetter, the filesystem, `mimetypes`) are injected as
explicit environment data, so that every theorem quantifies over their
possible behaviours.  Python exceptions are modelled with
`Except String`; a `try/except` block becomes a `match` on the
propagated `Except` value.  Python irregular truthiness
(`if not max_dim`, `if first_page`) is modelled explicitly on
`Option` values.  Python string primitives (`in`, `split`, `upper`,
`lower`, `startswith`) are modelled by executable functions on the
character list of a string.
-/

/-- A decoded in-memory bitmap (a PIL image): a pixel grid of the given
width and height; `content` is an opaque tag standing for the pixel data. -/
structure Bitmap where
  width : Nat
  height : Nat
  content : Nat
deriving DecidableEq, Repr

/-- The result of the image codec's encode step (`pil_img.save(buffered,
format=fmt)`): the encoded byte buffer is represented by the bitmap it
encodes together with the format name the codec was asked for. -/
structure Encoded where
  bitmap : Bitmap
  fmt : String
deriving DecidableEq, Repr

/-- The content envelope produced by
`Image(data=img_bytes, format=...).to_image_content()`. -/
structure ImageContent where
  data : Encoded
  format : String
deriving DecidableEq, Repr

/-- One element of a tool result list: either an image artifact or a
plain text string. -/
inductive ContentItem where
  | image (c : ImageContent)
  | text (s : String)
deriving DecidableEq, Repr

/-- Python `c in s` for a single character `c`. -/
def pyIn (c : Char) (s : String) : Bool :=
  s.data.contains c

/-- Python `s.startswith(pre)`. -/
def strStartsWith (s pre : String) : Bool :=
  pre.data.isPrefixOf s.data

/-- Python `s.lower()` (ASCII case mapping, the relevant fragment). -/
def strLower (s : String) : String :=
  ⟨s.data.map Char.toLower⟩

/-- Python `s.upper()` (ASCII case mapping, the relevant fragment). -/
def strUpper (s : String) : String :=
  ⟨s.data.map Char.toUpper⟩

/-- Python `s.split(sep)` for a one-character separator, on character
lists: `"".split(sep) == [""]`, `"a/b".split("/") == ["a", "b"]`. -/
def pySplit (sep : Char) : List Char → List (List Char)
  | [] => [[]]
  | c :: rest =>
    if c = sep then [] :: pySplit sep rest
    else
      match pySplit sep rest with
      | [] => [[c]]
      | g :: gs => (c :: g) :: gs

/-- PIL's `round_aspect(number, key)` inside `Image.thumbnail`:
`max(min(math.floor(number), math.ceil(number), key=key), 1)`, with
Python's `min` preferring the first argument (the floor) on ties.
Arithmetic is exact rational arithmetic. -/
def roundAspect (number : ℚ) (key : ℕ → ℚ) : ℕ :=
  let f : ℕ := (⌊number⌋).toNat
  let c : ℕ := (⌈number⌉).toNat
  max (if key f ≤ key c then f else c) 1

/-- The size computation of PIL's `Image.thumbnail((d, d), ...)` on an
image of size `w × h`: return unchanged when the bound already contains
the image, otherwise shrink the larger side to `d` and round the other
side to an adjacent integer preserving the aspect ratio (never below 1). -/
def thumbnailSize (w h d : ℕ) : ℕ × ℕ :=
  if d ≥ w ∧ d ≥ h then (w, h)
  else
    let aspect : ℚ := (w : ℚ) / (h : ℚ)
    if (d : ℚ) / (d : ℚ) ≥ aspect then
      (roundAspect ((d : ℚ) * aspect) (fun n => |aspect - (n : ℚ) / (d : ℚ)|), d)
    else
      (d, roundAspect ((d : ℚ) / aspect)
        (fun n => if n = 0 then 0 else |aspect - (d : ℚ) / (n : ℚ)|))

/-- `image.thumbnail((d, d), PILImage.Resampling.LANCZOS)`: the bitmap is
resampled in place to `thumbnailSize`; the pixel content stays that of the
same source image. -/
def thumbnail (image : Bitmap) (d : ℕ) : Bitmap :=
  let s := thumbnailSize image.width image.height d
  ⟨s.1, s.2, image.content⟩

/-- `_resize_if_needed(image, max_dim)` from `core/visual_rendering.py`.
`if not max_dim` is Python truthiness: both `None` and `0` leave the
image unchanged. -/
def resize_if_needed (image : Bitmap) (max_dim : Option ℕ) : Bitmap :=
  match max_dim with
  | none => image
  | some d =>
    if d = 0 then image
    else if max image.width image.height ≤ d then image
    else thumbnail image d

/-- The input of `render_image`: a raw byte buffer or a filesystem path
(`Union[bytes, str]`).  Each variant carries the outcome of
`PILImage.open` on that input, injecting the external codec's behaviour. -/
inductive ImageSource where
  | fromBytes (decoded : Except String Bitmap)
  | fromPath (decoded : Except String Bitmap)

/-- The output-format computation of `render_image` in the byte-buffer
branch: `mime_type.split("/")[-1].upper()`, with the alias `"JPG"`
mapped to `"JPEG"`. -/
def bytesFmt (mime_type : String) : String :=
  let f := strUpper ⟨(pySplit '/' mime_type.data).getLastD []⟩
  if f = "JPG" then "JPEG" else f

/-- `render_image(image_input, mime_type, max_dimension)` from
`core/visual_rendering.py`.  `encode` injects the codec's save step;
the surrounding `try/except` catches any failure of opening or saving
and degrades it to a one-element text error. -/
def render_image (encode : Bitmap → String → Except String Encoded)
    (image_input : ImageSource) (mime_type : String)
    (max_dimension : Option ℕ) : List ContentItem :=
  let opened := match image_input with
    | .fromBytes d => d
    | .fromPath d => d
  match opened with
  | .error e => [.text ("Error rendering image: " ++ e)]
  | .ok pil0 =>
    let pil := resize_if_needed pil0 max_dimension
    let fmt := match image_input with
      | .fromPath _ => "PNG"
      | .fromBytes _ => if pyIn '/' mime_type then bytesFmt mime_type else "PNG"
    match encode pil fmt with
    | .error e => [.text ("Error rendering image: " ++ e)]
    | .ok enc => [.image ⟨enc, strLower fmt⟩]

/-- The behaviour of one PDF handle (bytes or path) under the external
pdf2image capabilities: `info` is the outcome of
`int(pdfinfo_from_*(...).get("Pages", 0))` and `rasterize` the outcome of
`convert_from_*` for given (already truthiness-filtered) `first_page`,
`last_page` and `fmt` keyword arguments. -/
structure PdfEnv where
  info : Except String Nat
  rasterize : Option ℤ → Option ℤ → String → Except String (List Bitmap)

/-- Python keyword-argument truthiness inside `convert_pdf_to_images`:
`if first_page: common_args["first_page"] = first_page` drops both
`None` and `0`. -/
def pyTruthy : Option ℤ → Option ℤ
  | none => none
  | some k => if k = 0 then none else some k

/-- `convert_pdf_to_images(pdf_input, first_page, last_page, fmt)` from
`core/visual_rendering.py`: forward the truthy keyword arguments to the
rasterizer and wrap any raised error as
`RuntimeError("Failed to convert PDF to Image: ...")`. -/
def convert_pdf_to_images (env : PdfEnv)
    (first_page last_page : Option ℤ) (fmt : String) :
    Except String (List Bitmap) :=
  match env.rasterize (pyTruthy first_page) (pyTruthy last_page) fmt with
  | .ok imgs => .ok imgs
  | .error e => .error ("Failed to convert PDF to Image: " ++ e)

/-- `render_document_page(pdf_input, page_number, max_dimension)` from
`core/visual_rendering.py`.  The outer `try/except` corresponds to the
`.error` branches, each producing the caught-and-degraded text result. -/
def render_document_page (encode : Bitmap → String → Except String Encoded)
    (env : PdfEnv) (page_number : ℤ) (max_dimension : Option ℕ) :
    List ContentItem :=
  match env.info with
  | .error e => [.text ("Error rendering document: " ++ e)]
  | .ok total_pages =>
    if page_number > (total_pages : ℤ) then
      [.text ("Error: Page " ++ toString page_number ++
        " does not exist. The document has " ++ toString total_pages ++ " pages.")]
    else
      match convert_pdf_to_images env (some page_number) (some page_number) "png" with
      | .error e => [.text ("Error rendering document: " ++ e)]
      | .ok [] =>
        [.text ("Error: Could not render page " ++ toString page_number ++
          ". The document might be empty or invalid.")]
      | .ok (img0 :: _) =>
        match encode (resize_if_needed img0 max_dimension) "PNG" with
        | .error e => [.text ("Error rendering document: " ++ e)]
        | .ok enc =>
          let base := "Displaying Page " ++ toString page_number ++ " of " ++
            toString total_pages ++ "."
          let footer :=
            if page_number < (total_pages : ℤ) then
              base ++ (" Call this tool again with page_number=" ++
                toString (page_number + 1) ++ " to see the next page.")
            else base
          [.image ⟨enc, "png"⟩, .text footer]

/-- The page slice returned by pdf2image's `convert_from_*` on a healthy
document given the optional `first_page` / `last_page` keyword arguments
(1-based, inclusive; `first_page` defaults to 1, `last_page` to the page
count). -/
def sliceDoc (pages : List Bitmap) (first_page last_page : Option ℤ) :
    List Bitmap :=
  let f := first_page.getD 1
  let l := last_page.getD (pages.length : ℤ)
  (pages.drop (f - 1).toNat).take ((l - f) + 1).toNat

/-- The `PdfEnv` of a healthy document whose pages rasterize to the given
bitmaps: metadata reports the page count and rasterization returns the
requested slice. -/
def pdfEnvOfDoc (pages : List Bitmap) : PdfEnv :=
  { info := .ok pages.length
    rasterize := fun fp lp _ => .ok (sliceDoc pages fp lp) }

/-- A codec save step that always succeeds, recording the bitmap and the
requested format. -/
def recordEncode : Bitmap → String → Except String Encoded :=
  fun b f => .ok ⟨b, f⟩

/-- A rasterizer that returns no images for any request. -/
def rastEmpty : Option ℤ → Option ℤ → String → Except String (List Bitmap) :=
  fun _ _ _ => .ok []

/-- A rasterizer that returns no images exactly for the request
`first_page = last_page = 1` and a sentinel bitmap otherwise. -/
def rastPicky : Option ℤ → Option ℤ → String → Except String (List Bitmap) :=
  fun fp lp _ => if fp = some 1 ∧ lp = some 1 then .ok [] else .ok [⟨9, 9, 9⟩]

/-- `mime_type, _ = mimetypes.guess_type(path)` followed by
`if not mime_type: mime_type = "application/octet-stream"` (Python
truthiness: `None` and the empty string both fall back). -/
def guessedMime (m : Option String) : String :=
  match m with
  | none => "application/octet-stream"
  | some s => if s = "" then "application/octet-stream" else s

/-- The external world of one `get_local_file_visual` call for a fixed
path: filesystem checks, MIME guess, UTF-8 file read, `PILImage.open`
on the path, the pdf2image behaviour of the file at the path, the
WeasyPrint HTML-to-PDF conversion (the produced PDF bytes are identified
with their pdf2image behaviour; an `ImportError` for a missing
typesetter is a `.error` like any other raised conversion failure), and
the codec save step. -/
structure DispatchEnv where
  path_exists : Bool
  isfile : Bool
  guess_mime : Option String
  read_utf8 : Except String String
  open_image : Except String Bitmap
  pdf_env : PdfEnv
  html_to_pdf : String → Except String PdfEnv
  encode : Bitmap → String → Except String Encoded

/-- `get_local_file_visual(path, page_number, max_dimension)` from
`system/local_tools.py`. -/
def get_local_file_visual (env : DispatchEnv) (path : String)
    (page_number : ℤ) (max_dimension : Option ℕ) : List ContentItem :=
  if env.path_exists = false then
    [.text ("Error: File not found at " ++ path)]
  else if env.isfile = false then
    [.text ("Error: Path is not a file: " ++ path)]
  else
    let mime_type := guessedMime env.guess_mime
    if strStartsWith mime_type "image/" then
      render_image env.encode (.fromPath env.open_image) "image/png" max_dimension
    else if mime_type = "application/pdf" then
      render_document_page env.encode env.pdf_env page_number max_dimension
    else if mime_type = "text/html" then
      match env.read_utf8 with
      | .error e => [.text ("Error rendering HTML file: " ++ e)]
      | .ok html =>
        match env.html_to_pdf html with
        | .error e => [.text ("Error rendering HTML file: " ++ e)]
        | .ok penv => render_document_page env.encode penv page_number max_dimension
    else
      [.text ("Error: Unsupported file type '" ++ mime_type ++
        "'. Only PDF, Images, and HTML are supported for visual inspection.")]

/-- Spec-side description of the output-format policy for byte-buffer
inputs: the MIME hint's subtype with the informal alias `jpg`
canonicalised to `jpeg`, in lowercase. -/
def mimeSubtypeCanon (mime_type : String) : String :=
  let sub : String := ⟨(pySplit '/' mime_type.data).getLastD []⟩
  if strLower sub = "jpg" then "jpeg" else strLower sub

theorem char_toNat_ofNat_lt (n : ℕ) (h : n < 55296) : (Char.ofNat n).toNat = n := by
  have hv : n.isValidChar := Or.inl h
  simp [Char.ofNat, hv, Char.ofNatAux, Char.toNat, UInt32.toNat, BitVec.toNat_ofNatLt]

theorem char_toLower_toUpper (c : Char) : c.toUpper.toLower = c.toLower := by
  unfold Char.toUpper Char.toLower
  by_cases h : c.toNat ≥ 97 ∧ c.toNat ≤ 122
  · rw [if_pos h]
    have ht : (Char.ofNat (c.toNat - 32)).toNat = c.toNat - 32 :=
      char_toNat_ofNat_lt _ (by omega)
    rw [ht, if_pos (by omega), if_neg (by omega)]
    have : c.toNat - 32 + 32 = c.toNat := by omega
    rw [this, Char.ofNat_toNat]
  · rw [if_neg h]

theorem char_toUpper_toLower (c : Char) : c.toLower.toUpper = c.toUpper := by
  unfold Char.toUpper Char.toLower
  by_cases h : c.toNat ≥ 65 ∧ c.toNat ≤ 90
  · rw [if_pos h]
    have ht : (Char.ofNat (c.toNat + 32)).toNat = c.toNat + 32 :=
      char_toNat_ofNat_lt _ (by omega)
    rw [ht, if_pos (by omega), if_neg (by omega)]
    have : c.toNat + 32 - 32 = c.toNat := by omega
    rw [this, Char.ofNat_toNat]
  · rw [if_neg h]

theorem strLower_strUpper (s : String) : strLower (strUpper s) = strLower s := by
  simp only [strLower, strUpper, List.map_map]
  exact congrArg String.mk (List.map_congr_left fun c _ => char_toLower_toUpper c)

theorem strUpper_strLower (s : String) : strUpper (strLower s) = strUpper s := by
  simp only [strLower, strUpper, List.map_map]
  exact congrArg String.mk (List.map_congr_left fun c _ => char_toUpper_toLower c)

theorem bytesFmt_strLower (mime : String) :
    strLower (bytesFmt mime) = mimeSubtypeCanon mime := by
  unfold bytesFmt mimeSubtypeCanon
  dsimp only
  by_cases h : strUpper ⟨(pySplit '/' mime.data).getLastD []⟩ = "JPG"
  · rw [if_pos h]
    have h2 : strLower ⟨(pySplit '/' mime.data).getLastD []⟩ = "jpg" := by
      rw [← strLower_strUpper, h]
      decide
    rw [if_pos h2]
    decide
  · rw [if_neg h]
    have h2 : strLower ⟨(pySplit '/' mime.data).getLastD []⟩ ≠ "jpg" := by
      intro hc
      refine h ?_
      rw [← strUpper_strLower, hc]
      decide
    rw [if_neg h2]
    exact strLower_strUpper _

theorem roundAspect_props (q : ℚ) (key : ℕ → ℚ) (d : ℕ)
    (hq : 0 < q) (hqd : q ≤ (d : ℚ)) (hd : 1 ≤ d) :
    1 ≤ roundAspect q key ∧ roundAspect q key ≤ d ∧
      |(roundAspect q key : ℚ) - q| < 1 := by
  unfold roundAspect
  dsimp only
  have hf0 : 0 ≤ ⌊q⌋ := Int.floor_nonneg.mpr hq.le
  have hc0 : 0 ≤ ⌈q⌉ := Int.ceil_nonneg hq.le
  have hFq : ((⌊q⌋.toNat : ℚ)) ≤ q := by
    have h2 : ((⌊q⌋.toNat : ℤ) : ℚ) ≤ q := by
      rw [Int.toNat_of_nonneg hf0]; exact Int.floor_le q
    exact_mod_cast h2
  have hFd : ⌊q⌋.toNat ≤ d := by
    have h1 : ⌊q⌋ ≤ (d : ℤ) := by simpa using Int.floor_mono hqd
    omega
  have hCq : q ≤ (⌈q⌉.toNat : ℚ) := by
    have h2 : q ≤ ((⌈q⌉.toNat : ℤ) : ℚ) := by
      rw [Int.toNat_of_nonneg hc0]; exact Int.le_ceil q
    exact_mod_cast h2
  have hC1 : 1 ≤ ⌈q⌉.toNat := by
    have := Int.ceil_pos.mpr hq
    omega
  have hCd : ⌈q⌉.toNat ≤ d := by
    have h1 : ⌈q⌉ ≤ (d : ℤ) := by simpa using Int.ceil_mono hqd
    omega
  have hCq1 : (⌈q⌉.toNat : ℚ) - q < 1 := by
    have h2 : ((⌈q⌉.toNat : ℤ) : ℚ) < q + 1 := by
      rw [Int.toNat_of_nonneg hc0]; exact Int.ceil_lt_add_one q
    have h3 : (⌈q⌉.toNat : ℚ) < q + 1 := by exact_mod_cast h2
    linarith
  by_cases hk : key ⌊q⌋.toNat ≤ key ⌈q⌉.toNat
  · rw [if_pos hk]
    refine ⟨le_max_right _ _, max_le hFd hd, ?_⟩
    by_cases hf1 : 1 ≤ ⌊q⌋.toNat
    · rw [max_eq_left hf1, abs_sub_comm, abs_of_nonneg (by linarith)]
      have h2 : q - 1 < ((⌊q⌋.toNat : ℤ) : ℚ) := by
        rw [Int.toNat_of_nonneg hf0]; exact Int.sub_one_lt_floor q
      have h3 : q - 1 < (⌊q⌋.toNat : ℚ) := by exact_mod_cast h2
      linarith
    · have hfz : ⌊q⌋.toNat = 0 := by omega
      have hfz' : ⌊q⌋ = 0 := by omega
      have hq1 : q < 1 := by
        have := Int.lt_floor_add_one q
        rw [hfz'] at this
        simpa using this
      rw [hfz]
      have hm : max 0 1 = 1 := by decide
      rw [hm, abs_of_nonneg (by push_cast; linarith)]
      push_cast
      linarith
  · rw [if_neg hk]
    rw [max_eq_left hC1]
    refine ⟨hC1, hCd, ?_⟩
    rw [abs_of_nonneg (by linarith)]
    linarith

theorem thumbnailSize_spec (w h d : ℕ) (hw : 0 < w) (hh : 0 < h) (hd : 0 < d)
    (hbig : d < max w h) :
    max (thumbnailSize w h d).1 (thumbnailSize w h d).2 = d ∧
    |((thumbnailSize w h d).1 : ℤ) * (h : ℤ) - ((thumbnailSize w h d).2 : ℤ) * (w : ℤ)| <
      (max w h : ℤ) := by
  have hne : ¬ (d ≥ w ∧ d ≥ h) := by omega
  have hd0 : (d : ℚ) ≠ 0 := by positivity
  have hhq : (0 : ℚ) < (h : ℚ) := by positivity
  have hwq : (0 : ℚ) < (w : ℚ) := by positivity
  unfold thumbnailSize
  rw [if_neg hne]
  dsimp only
  by_cases hwh : w ≤ h
  · have hcond : (d : ℚ) / (d : ℚ) ≥ (w : ℚ) / (h : ℚ) := by
      have hle1 : (w : ℚ) / (h : ℚ) ≤ 1 := by
        rw [div_le_one hhq]
        exact_mod_cast hwh
      rw [div_self hd0]
      exact hle1
    rw [if_pos hcond]
    dsimp only
    have hq : (0 : ℚ) < (d : ℚ) * ((w : ℚ) / (h : ℚ)) := by positivity
    have hdiv1 : (w : ℚ) / (h : ℚ) ≤ 1 := by
      rw [div_le_one hhq]; exact_mod_cast hwh
    have hqd : (d : ℚ) * ((w : ℚ) / (h : ℚ)) ≤ (d : ℚ) := by
      nlinarith
    obtain ⟨h1, h2, h3⟩ := roundAspect_props ((d : ℚ) * ((w : ℚ) / (h : ℚ)))
      (fun n => |(w : ℚ) / (h : ℚ) - (n : ℚ) / (d : ℚ)|) d hq hqd (by omega)
    refine ⟨max_eq_right h2, ?_⟩
    set n := roundAspect ((d : ℚ) * ((w : ℚ) / (h : ℚ)))
      (fun n => |(w : ℚ) / (h : ℚ) - (n : ℚ) / (d : ℚ)|) with hn
    have hmz : max (w : ℤ) (h : ℤ) = (h : ℤ) := max_eq_right (by exact_mod_cast hwh)
    rw [hmz]
    have hQ : |(n : ℚ) * (h : ℚ) - (d : ℚ) * (w : ℚ)| < (h : ℚ) := by
      have heq : (n : ℚ) * (h : ℚ) - (d : ℚ) * (w : ℚ) =
          ((n : ℚ) - (d : ℚ) * ((w : ℚ) / (h : ℚ))) * (h : ℚ) := by
        field_simp
      rw [heq, abs_mul, abs_of_nonneg hhq.le]
      calc |(n : ℚ) - (d : ℚ) * ((w : ℚ) / (h : ℚ))| * (h : ℚ)
          < 1 * (h : ℚ) := by exact mul_lt_mul_of_pos_right h3 hhq
        _ = (h : ℚ) := one_mul _
    exact_mod_cast hQ
  · have hcond : ¬ ((d : ℚ) / (d : ℚ) ≥ (w : ℚ) / (h : ℚ)) := by
      rw [div_self hd0]
      push_neg
      rw [one_lt_div hhq]
      exact_mod_cast Nat.lt_of_not_le hwh
    rw [if_neg hcond]
    dsimp only
    have hq : (0 : ℚ) < (d : ℚ) / ((w : ℚ) / (h : ℚ)) := by positivity
    have hrw : (d : ℚ) / ((w : ℚ) / (h : ℚ)) = (d : ℚ) * ((h : ℚ) / (w : ℚ)) := by
      field_simp
    have hdiv1 : (h : ℚ) / (w : ℚ) ≤ 1 := by
      rw [div_le_one hwq]
      exact_mod_cast (Nat.lt_of_not_le hwh).le
    have hqd : (d : ℚ) / ((w : ℚ) / (h : ℚ)) ≤ (d : ℚ) := by
      rw [hrw]; nlinarith
    obtain ⟨h1, h2, h3⟩ := roundAspect_props ((d : ℚ) / ((w : ℚ) / (h : ℚ)))
      (fun n => if n = 0 then 0 else |(w : ℚ) / (h : ℚ) - (d : ℚ) / (n : ℚ)|) d hq hqd (by omega)
    refine ⟨max_eq_left h2, ?_⟩
    set n := roundAspect ((d : ℚ) / ((w : ℚ) / (h : ℚ)))
      (fun n => if n = 0 then 0 else |(w : ℚ) / (h : ℚ) - (d : ℚ) / (n : ℚ)|) with hn
    have hmz : max (w : ℤ) (h : ℤ) = (w : ℤ) :=
      max_eq_left (by exact_mod_cast (Nat.lt_of_not_le hwh).le)
    rw [hmz]
    have hQ : |(d : ℚ) * (h : ℚ) - (n : ℚ) * (w : ℚ)| < (w : ℚ) := by
      have heq : (d : ℚ) * (h : ℚ) - (n : ℚ) * (w : ℚ) =
          ((d : ℚ) / ((w : ℚ) / (h : ℚ)) - (n : ℚ)) * (w : ℚ) := by
        field_simp
        ring
      rw [heq, abs_mul, abs_of_nonneg hwq.le, abs_sub_comm]
      calc |(n : ℚ) - (d : ℚ) / ((w : ℚ) / (h : ℚ))| * (w : ℚ)
          < 1 * (w : ℚ) := by exact mul_lt_mul_of_pos_right h3 hwq
        _ = (w : ℚ) := one_mul _
    exact_mod_cast hQ

/-- C4: the Resizer returns the bitmap unchanged when the bound is absent
or when `max(width, height) ≤ bound` (no upscaling ever occurs); and for
every bitmap with `max(width, height) > bound` (with a positive bound and
positive dimensions), the result satisfies `max(width, height) = bound`
with the aspect ratio preserved within one pixel of rounding (the cross
products of the dimensions differ by less than the larger original
side). -/
theorem resize_if_needed_spec (img : Bitmap) (bound : ℕ) :
    resize_if_needed img none = img ∧
    (max img.width img.height ≤ bound → resize_if_needed img (some bound) = img) ∧
    (0 < bound → 0 < img.width → 0 < img.height →
      bound < max img.width img.height →
      max (resize_if_needed img (some bound)).width
          (resize_if_needed img (some bound)).height = bound ∧
      |((resize_if_needed img (some bound)).width : ℤ) * (img.height : ℤ) -
          ((resize_if_needed img (some bound)).height : ℤ) * (img.width : ℤ)| <
        (max img.width img.height : ℤ)) := by
  refine ⟨rfl, fun hle => ?_, fun hb hw hh hgt => ?_⟩
  · by_cases hb0 : bound = 0
    · subst hb0
      rfl
    · unfold resize_if_needed
      dsimp only
      rw [if_neg hb0, if_pos hle]
  · have hthumb : resize_if_needed img (some bound) = thumbnail img bound := by
      unfold resize_if_needed
      dsimp only
      rw [if_neg (show ¬ bound = 0 by omega), if_neg (by omega)]
    rw [hthumb]
    unfold thumbnail
    exact thumbnailSize_spec img.width img.height bound hw hh hb hgt

theorem resize_if_needed_spec_witness :
    max (⟨4, 2, 7⟩ : Bitmap).width (⟨4, 2, 7⟩ : Bitmap).height ≤ 5 ∧
    resize_if_needed ⟨4, 2, 7⟩ (some 5) = ⟨4, 2, 7⟩ ∧
    0 < 2 ∧ 0 < (⟨4, 2, 7⟩ : Bitmap).width ∧ 0 < (⟨4, 2, 7⟩ : Bitmap).height ∧
    2 < max (⟨4, 2, 7⟩ : Bitmap).width (⟨4, 2, 7⟩ : Bitmap).height ∧
    (max (resize_if_needed ⟨4, 2, 7⟩ (some 2)).width
        (resize_if_needed ⟨4, 2, 7⟩ (some 2)).height = 2 ∧
      |((resize_if_needed ⟨4, 2, 7⟩ (some 2)).width : ℤ) *
          ((⟨4, 2, 7⟩ : Bitmap).height : ℤ) -
          ((resize_if_needed ⟨4, 2, 7⟩ (some 2)).height : ℤ) *
            ((⟨4, 2, 7⟩ : Bitmap).width : ℤ)| <
        (max (⟨4, 2, 7⟩ : Bitmap).width (⟨4, 2, 7⟩ : Bitmap).height : ℤ)) :=
  ⟨by decide, (resize_if_needed_spec ⟨4, 2, 7⟩ 5).2.1 (by decide),
    by decide, by decide, by decide, by decide,
    (resize_if_needed_spec ⟨4, 2, 7⟩ 2).2.2 (by decide) (by decide) (by decide) (by decide)⟩

/-- C10: a zero `max_dimension` is treated by Python truthiness exactly
like an absent one: the Resizer is the identity, and both renderers
behave identically with `max_dimension = 0` and with no bound. -/
theorem zero_bound_no_resize (image : Bitmap)
    (encode : Bitmap → String → Except String Encoded) (inp : ImageSource)
    (mime : String) (env : PdfEnv) (p : ℤ) :
    resize_if_needed image (some 0) = image ∧
    resize_if_needed image none = image ∧
    render_image encode inp mime (some 0) = render_image encode inp mime none ∧
    render_document_page encode env p (some 0) =
      render_document_page encode env p none := by
  refine ⟨rfl, rfl, ?_, ?_⟩
  · cases inp with
    | fromBytes d => cases d <;> rfl
    | fromPath d => cases d <;> rfl
  · obtain ⟨info, rast⟩ := env
    cases info with
    | error e => rfl
    | ok N => rfl

/-- C3: when the requested page number exceeds the page count reported by
the metadata capability, `render_document_page` returns the single text
error naming both numbers; the result does not depend on the rasterizer
(which is quantified over all behaviours), so rasterization is never
consulted. -/
theorem page_out_of_range_error (encode : Bitmap → String → Except String Encoded)
    (rast : Option ℤ → Option ℤ → String → Except String (List Bitmap))
    (N : ℕ) (p : ℤ) (maxdim : Option ℕ) (hgt : (N : ℤ) < p) :
    render_document_page encode ⟨.ok N, rast⟩ p maxdim =
      [.text ("Error: Page " ++ toString p ++
        " does not exist. The document has " ++ toString N ++ " pages.")] := by
  simp only [render_document_page]
  rw [if_pos hgt]

theorem page_out_of_range_error_witness :
    ((1 : ℕ) : ℤ) < 2 ∧
    render_document_page recordEncode ⟨.ok 1, rastEmpty⟩ 2 none =
      [.text ("Error: Page " ++ toString (2 : ℤ) ++
        " does not exist. The document has " ++ toString (1 : ℕ) ++ " pages.")] :=
  ⟨by decide, page_out_of_range_error recordEncode rastEmpty 1 2 none (by decide)⟩

/-- C6: when the rasterization capability returns an empty list of images
for an in-range page, `render_document_page` returns the single
"might be empty or invalid" text error naming the page; no exception is
involved (the branch is the empty-result branch, not the error branch). -/
theorem empty_rasterization_error (encode : Bitmap → String → Except String Encoded)
    (rast : Option ℤ → Option ℤ → String → Except String (List Bitmap))
    (N : ℕ) (p : ℤ) (maxdim : Option ℕ)
    (hle : p ≤ (N : ℤ))
    (hrast : rast (pyTruthy (some p)) (pyTruthy (some p)) "png" = .ok []) :
    render_document_page encode ⟨.ok N, rast⟩ p maxdim =
      [.text ("Error: Could not render page " ++ toString p ++
        ". The document might be empty or invalid.")] := by
  simp only [render_document_page, convert_pdf_to_images, hrast]
  rw [if_neg (by omega)]

theorem empty_rasterization_error_witness :
    (1 : ℤ) ≤ ((1 : ℕ) : ℤ) ∧
    rastEmpty (pyTruthy (some 1)) (pyTruthy (some 1)) "png" = .ok [] ∧
    render_document_page recordEncode ⟨.ok 1, rastEmpty⟩ 1 none =
      [.text ("Error: Could not render page " ++ toString (1 : ℤ) ++
        ". The document might be empty or invalid.")] :=
  ⟨by decide, rfl,
    empty_rasterization_error recordEncode rastEmpty 1 1 none (by decide) rfl⟩

/-- C7: for a page number ≥ 1, the truthiness filter passes the page
number through, and `render_document_page` consults the rasterizer only
at the argument triple `(some page, some page, "png")`: two rasterizers
that agree there (and may disagree on every other range, in particular on
whole-document requests) yield identical results. -/
theorem rasterize_exact_page_range (encode : Bitmap → String → Except String Encoded)
    (info : Except String ℕ)
    (rast1 rast2 : Option ℤ → Option ℤ → String → Except String (List Bitmap))
    (p : ℤ) (maxdim : Option ℕ) (hp : 1 ≤ p)
    (hagree : rast1 (some p) (some p) "png" = rast2 (some p) (some p) "png") :
    pyTruthy (some p) = some p ∧
    render_document_page encode ⟨info, rast1⟩ p maxdim =
      render_document_page encode ⟨info, rast2⟩ p maxdim := by
  have hne : p ≠ 0 := by omega
  have hpt : pyTruthy (some p) = some p := by simp [pyTruthy, hne]
  refine ⟨hpt, ?_⟩
  cases info with
  | error e => rfl
  | ok N =>
    simp only [render_document_page, convert_pdf_to_images, hpt, hagree]

theorem rasterize_exact_page_range_witness :
    (1 : ℤ) ≤ 1 ∧
    rastEmpty (some 1) (some 1) "png" = rastPicky (some 1) (some 1) "png" ∧
    (pyTruthy (some 1) = some 1 ∧
      render_document_page recordEncode ⟨.ok 1, rastEmpty⟩ 1 none =
        render_document_page recordEncode ⟨.ok 1, rastPicky⟩ 1 none) :=
  ⟨by decide, rfl,
    rasterize_exact_page_range recordEncode (.ok 1) rastEmpty rastPicky 1 none
      (by decide) rfl⟩

theorem sliceDoc_single (pages : List Bitmap) (n : ℕ) (img0 : Bitmap)
    (h1 : 1 ≤ n) (h3 : pages[n - 1]? = some img0) :
    sliceDoc pages (some (n : ℤ)) (some (n : ℤ)) = [img0] := by
  obtain ⟨hlt, heq⟩ := List.getElem?_eq_some.mp h3
  have e1 : ((n : ℤ) - 1).toNat = n - 1 := by omega
  have e2 : (((n : ℤ) - (n : ℤ)) + 1).toNat = 1 := by omega
  simp only [sliceDoc, Option.getD_some, e1, e2]
  rw [List.drop_eq_getElem_cons hlt]
  simp [heq]

/-- C2: for a healthy document and a requested page `n` with
`1 ≤ n ≤ total` whose rasterization yields its bitmap,
`render_document_page` returns exactly the image artifact followed by the
footer `"Displaying Page n of total."`, with the continuation hint naming
`n + 1` appended exactly when `n < total`. -/
theorem in_range_page_success (encode : Bitmap → String → Except String Encoded)
    (pages : List Bitmap) (n : ℕ) (maxdim : Option ℕ) (img0 : Bitmap) (e : Encoded)
    (h1 : 1 ≤ n) (h2 : n ≤ pages.length)
    (h3 : pages[n - 1]? = some img0)
    (h4 : encode (resize_if_needed img0 maxdim) "PNG" = .ok e) :
    render_document_page encode (pdfEnvOfDoc pages) (n : ℤ) maxdim =
      [.image ⟨e, "png"⟩,
       .text (if (n : ℤ) < (pages.length : ℤ) then
           ("Displaying Page " ++ toString (n : ℤ) ++ " of " ++
             toString pages.length ++ ".") ++
           (" Call this tool again with page_number=" ++ toString ((n : ℤ) + 1) ++
             " to see the next page.")
         else
           "Displaying Page " ++ toString (n : ℤ) ++ " of " ++
             toString pages.length ++ ".")] := by
  have hslice := sliceDoc_single pages n img0 h1 h3
  have hne : (n : ℤ) ≠ 0 := by omega
  have hpt : pyTruthy (some (n : ℤ)) = some (n : ℤ) := by simp [pyTruthy, hne]
  simp only [render_document_page, pdfEnvOfDoc, convert_pdf_to_images, hpt, hslice, h4]
  rw [if_neg (by omega : ¬ ((n : ℤ) > (pages.length : ℤ)))]

theorem in_range_page_success_witness :
    1 ≤ 1 ∧ 1 ≤ ([⟨3, 4, 0⟩] : List Bitmap).length ∧
    ([⟨3, 4, 0⟩] : List Bitmap)[1 - 1]? = some ⟨3, 4, 0⟩ ∧
    recordEncode (resize_if_needed ⟨3, 4, 0⟩ none) "PNG" = .ok ⟨⟨3, 4, 0⟩, "PNG"⟩ ∧
    render_document_page recordEncode (pdfEnvOfDoc [⟨3, 4, 0⟩]) 1 none =
      [.image ⟨⟨⟨3, 4, 0⟩, "PNG"⟩, "png"⟩, .text "Displaying Page 1 of 1."] := by
  refine ⟨by decide, by decide, rfl, rfl, ?_⟩
  exact in_range_page_success recordEncode [⟨3, 4, 0⟩] 1 none ⟨3, 4, 0⟩
    ⟨⟨3, 4, 0⟩, "PNG"⟩ (by decide) (by decide) rfl rfl

/-- C9: with `page_number = 0` on a healthy non-empty document, the range
check `0 > total` does not fire, the truthiness filter drops the page
constraints so the whole document is rasterized, and the first page's
bitmap comes back with the footer `"Displaying Page 0 of total."`
followed by the hint naming `page_number = 1`. -/
theorem zero_page_renders_whole_document (encode : Bitmap → String → Except String Encoded)
    (pages : List Bitmap) (maxdim : Option ℕ) (img0 : Bitmap) (e : Encoded)
    (h3 : pages[0]? = some img0)
    (h4 : encode (resize_if_needed img0 maxdim) "PNG" = .ok e) :
    pyTruthy (some 0) = none ∧
    sliceDoc pages none none = pages ∧
    render_document_page encode (pdfEnvOfDoc pages) 0 maxdim =
      [.image ⟨e, "png"⟩,
       .text (("Displaying Page " ++ toString (0 : ℤ) ++ " of " ++
           toString pages.length ++ ".") ++
         (" Call this tool again with page_number=" ++ toString ((0 : ℤ) + 1) ++
           " to see the next page."))] := by
  have hslice : sliceDoc pages none none = pages := by
    have e2 : (((pages.length : ℤ) - 1) + 1).toNat = pages.length := by omega
    simp only [sliceDoc, Option.getD_none]
    norm_num [e2]
  refine ⟨rfl, hslice, ?_⟩
  obtain ⟨hlt, heq⟩ := List.getElem?_eq_some.mp h3
  cases pages with
  | nil => simp at hlt
  | cons a t =>
    have ha : a = img0 := by simpa using heq
    subst ha
    simp only [render_document_page, pdfEnvOfDoc, convert_pdf_to_images] at *
    rw [if_neg (by omega : ¬ ((0 : ℤ) > ((a :: t).length : ℤ)))]
    simp only [pyTruthy]
    norm_num
    rw [hslice]
    simp [h4]

theorem zero_page_renders_whole_document_witness :
    ([⟨3, 4, 0⟩, ⟨5, 6, 1⟩] : List Bitmap)[0]? = some ⟨3, 4, 0⟩ ∧
    recordEncode (resize_if_needed ⟨3, 4, 0⟩ none) "PNG" = .ok ⟨⟨3, 4, 0⟩, "PNG"⟩ ∧
    (pyTruthy (some 0) = none ∧
      sliceDoc [⟨3, 4, 0⟩, ⟨5, 6, 1⟩] none none = [⟨3, 4, 0⟩, ⟨5, 6, 1⟩] ∧
      render_document_page recordEncode (pdfEnvOfDoc [⟨3, 4, 0⟩, ⟨5, 6, 1⟩]) 0 none =
        [.image ⟨⟨⟨3, 4, 0⟩, "PNG"⟩, "png"⟩,
         .text ("Displaying Page 0 of 2." ++
           " Call this tool again with page_number=1 to see the next page.")]) := by
  refine ⟨rfl, rfl, ?_⟩
  exact zero_page_renders_whole_document recordEncode [⟨3, 4, 0⟩, ⟨5, 6, 1⟩] none
    ⟨3, 4, 0⟩ ⟨⟨3, 4, 0⟩, "PNG"⟩ rfl rfl

/-- C5: on a successful `render_image` call with a byte-buffer input whose
MIME hint contains `"/"`, the codec is asked for the hint's subtype
(alias `jpg` canonicalised to `jpeg`) and the artifact's format tag is
that canonical subtype in lowercase; with a path input the codec is
always asked for PNG and the tag is `"png"`, whatever the hint. -/
theorem render_image_format_policy (encode : Bitmap → String → Except String Encoded)
    (b : Bitmap) (mime : String) (maxdim : Option ℕ) (e : Encoded) :
    (pyIn '/' mime = true →
      strLower (bytesFmt mime) = mimeSubtypeCanon mime ∧
      (encode (resize_if_needed b maxdim) (bytesFmt mime) = .ok e →
        render_image encode (.fromBytes (.ok b)) mime maxdim =
          [.image ⟨e, mimeSubtypeCanon mime⟩])) ∧
    (encode (resize_if_needed b maxdim) "PNG" = .ok e →
      render_image encode (.fromPath (.ok b)) mime maxdim = [.image ⟨e, "png"⟩]) := by
  constructor
  · intro hc
    refine ⟨bytesFmt_strLower mime, fun henc => ?_⟩
    unfold render_image
    dsimp only
    rw [if_pos hc, henc, bytesFmt_strLower]
  · intro henc
    unfold render_image
    dsimp only
    rw [henc]
    have : strLower "PNG" = "png" := by decide
    rw [this]

theorem render_image_format_policy_witness :
    pyIn '/' "image/jpg" = true ∧
    strLower (bytesFmt "image/jpg") = mimeSubtypeCanon "image/jpg" ∧
    render_image recordEncode (.fromBytes (.ok ⟨1, 1, 0⟩)) "image/jpg" none =
      [.image ⟨⟨⟨1, 1, 0⟩, "JPEG"⟩, "jpeg"⟩] ∧
    render_image recordEncode (.fromPath (.ok ⟨1, 1, 0⟩)) "image/jpg" none =
      [.image ⟨⟨⟨1, 1, 0⟩, "PNG"⟩, "png"⟩] := by
  have h1 := (render_image_format_policy recordEncode ⟨1, 1, 0⟩ "image/jpg" none
    ⟨⟨1, 1, 0⟩, "JPEG"⟩).1 (by decide)
  have h2 := (render_image_format_policy recordEncode ⟨1, 1, 0⟩ "image/jpg" none
    ⟨⟨1, 1, 0⟩, "PNG"⟩).2 rfl
  refine ⟨by decide, h1.1, ?_, h2⟩
  have h3 := h1.2 rfl
  have h4 : mimeSubtypeCanon "image/jpg" = "jpeg" := by decide
  rw [h4] at h3
  exact h3

theorem render_image_shape (encode : Bitmap → String → Except String Encoded)
    (inp : ImageSource) (mime : String) (maxdim : Option ℕ) :
    (∃ r, render_image encode inp mime maxdim = [.text ("Error" ++ r)]) ∨
    (∃ c, render_image encode inp mime maxdim = [.image c]) := by
  unfold render_image
  cases inp with
  | fromBytes d =>
    cases d with
    | error e => exact Or.inl ⟨" rendering image: " ++ e, by rw [← String.append_assoc]; rfl⟩
    | ok b =>
      dsimp only
      split
      · next e _ => exact Or.inl ⟨" rendering image: " ++ e, by rw [← String.append_assoc]; rfl⟩
      · next enc _ => exact Or.inr ⟨_, rfl⟩
  | fromPath d =>
    cases d with
    | error e => exact Or.inl ⟨" rendering image: " ++ e, by rw [← String.append_assoc]; rfl⟩
    | ok b =>
      dsimp only
      split
      · next e _ => exact Or.inl ⟨" rendering image: " ++ e, by rw [← String.append_assoc]; rfl⟩
      · next enc _ => exact Or.inr ⟨_, rfl⟩

theorem render_document_page_shape (encode : Bitmap → String → Except String Encoded)
    (env : PdfEnv) (p : ℤ) (maxdim : Option ℕ) :
    (∃ r, render_document_page encode env p maxdim = [.text ("Error" ++ r)]) ∨
    (∃ c s, render_document_page encode env p maxdim = [.image c, .text s]) := by
  obtain ⟨info, rast⟩ := env
  unfold render_document_page
  cases info with
  | error e => exact Or.inl ⟨" rendering document: " ++ e, by rw [← String.append_assoc]; rfl⟩
  | ok N =>
    dsimp only
    by_cases hgt : p > (N : ℤ)
    · rw [if_pos hgt]
      refine Or.inl ⟨": Page " ++ toString p ++ " does not exist. The document has " ++
        toString N ++ " pages.", ?_⟩
      simp only [← String.append_assoc]
      rfl
    · rw [if_neg hgt]
      split
      · next e _ => exact Or.inl ⟨" rendering document: " ++ e, by rw [← String.append_assoc]; rfl⟩
      · next _ =>
        refine Or.inl ⟨": Could not render page " ++ toString p ++
          ". The document might be empty or invalid.", ?_⟩
        simp only [← String.append_assoc]
        rfl
      · next img0 tail _ =>
        split
        · next e _ => exact Or.inl ⟨" rendering document: " ++ e, by rw [← String.append_assoc]; rfl⟩
        · next enc _ => exact Or.inr ⟨_, _, rfl⟩

/-- C1: every `get_local_file_visual` result is a non-empty list of one of
three shapes: a single text string beginning with `"Error"`; for an
`image/*` MIME type, a single image artifact; or, for a PDF or HTML MIME
type, an image artifact followed by a status text.  The embedding is a
total function, so no exception escapes the entry point. -/
theorem get_local_file_visual_result_shape (env : DispatchEnv) (path : String)
    (p : ℤ) (maxdim : Option ℕ) :
    (∃ r, get_local_file_visual env path p maxdim = [.text ("Error" ++ r)]) ∨
    (strStartsWith (guessedMime env.guess_mime) "image/" = true ∧
      ∃ c, get_local_file_visual env path p maxdim = [.image c]) ∨
    ((guessedMime env.guess_mime = "application/pdf" ∨
        guessedMime env.guess_mime = "text/html") ∧
      ∃ c s, get_local_file_visual env path p maxdim = [.image c, .text s]) := by
  obtain ⟨pe, isf, gm, ru, oi, penv, h2p, enc⟩ := env
  unfold get_local_file_visual
  dsimp only
  by_cases hpe : pe = false
  · rw [if_pos hpe]
    exact Or.inl ⟨": File not found at " ++ path, by rw [← String.append_assoc]; rfl⟩
  · rw [if_neg hpe]
    by_cases hisf : isf = false
    · rw [if_pos hisf]
      exact Or.inl ⟨": Path is not a file: " ++ path, by rw [← String.append_assoc]; rfl⟩
    · rw [if_neg hisf]
      by_cases himg : strStartsWith (guessedMime gm) "image/" = true
      · rw [if_pos himg]
        rcases render_image_shape enc (.fromPath oi) "image/png" maxdim with ⟨r, hr⟩ | ⟨c, hc⟩
        · exact Or.inl ⟨r, hr⟩
        · exact Or.inr (Or.inl ⟨himg, c, hc⟩)
      · rw [if_neg himg]
        by_cases hpdf : guessedMime gm = "application/pdf"
        · rw [if_pos hpdf]
          rcases render_document_page_shape enc penv p maxdim with ⟨r, hr⟩ | ⟨c, s, hcs⟩
          · exact Or.inl ⟨r, hr⟩
          · exact Or.inr (Or.inr ⟨Or.inl hpdf, c, s, hcs⟩)
        · rw [if_neg hpdf]
          by_cases hhtml : guessedMime gm = "text/html"
          · rw [if_pos hhtml]
            cases ru with
            | error e =>
              exact Or.inl ⟨" rendering HTML file: " ++ e, by rw [← String.append_assoc]; rfl⟩
            | ok html =>
              dsimp only
              cases hh : h2p html with
              | error e =>
                exact Or.inl ⟨" rendering HTML file: " ++ e, by rw [← String.append_assoc]; rfl⟩
              | ok penv2 =>
                rcases render_document_page_shape enc penv2 p maxdim with ⟨r, hr⟩ | ⟨c, s, hcs⟩
                · exact Or.inl ⟨r, hr⟩
                · exact Or.inr (Or.inr ⟨Or.inr hhtml, c, s, hcs⟩)
          · rw [if_neg hhtml]
            refine Or.inl ⟨": Unsupported file type '" ++ guessedMime gm ++
              "'. Only PDF, Images, and HTML are supported for visual inspection.", ?_⟩
            simp only [← String.append_assoc]
            rfl

/-- C8: a non-existent path yields exactly the "not found" text error; an
existing non-regular-file path yields the "not a file" text error; an
existing regular file with an unsupported inferred MIME type yields the
text error naming that MIME type.  In all three conjuncts the result is a
fixed list for every behaviour of the renderers and codecs in the
environment, so no renderer is invoked. -/
theorem dispatch_guard_errors (env : DispatchEnv) (path : String)
    (p : ℤ) (maxdim : Option ℕ) :
    (env.path_exists = false →
      get_local_file_visual env path p maxdim =
        [.text ("Error: File not found at " ++ path)]) ∧
    (env.path_exists = true → env.isfile = false →
      get_local_file_visual env path p maxdim =
        [.text ("Error: Path is not a file: " ++ path)]) ∧
    (env.path_exists = true → env.isfile = true →
      strStartsWith (guessedMime env.guess_mime) "image/" = false →
      guessedMime env.guess_mime ≠ "application/pdf" →
      guessedMime env.guess_mime ≠ "text/html" →
      get_local_file_visual env path p maxdim =
        [.text ("Error: Unsupported file type '" ++ guessedMime env.guess_mime ++
          "'. Only PDF, Images, and HTML are supported for visual inspection.")]) := by
  obtain ⟨pe, isf, gm, ru, oi, penv, h2p, enc⟩ := env
  unfold get_local_file_visual
  dsimp only
  refine ⟨?_, ?_, ?_⟩
  · intro h1
    rw [if_pos h1]
  · intro h1 h2
    rw [if_neg (by simp [h1]), if_pos h2]
  · intro h1 h2 h3 h4 h5
    rw [if_neg (by simp [h1]), if_neg (by simp [h2]), if_neg (by simp [h3]),
      if_neg h4, if_neg h5]

theorem dispatch_guard_errors_witness :
    get_local_file_visual ⟨false, true, none, .ok "", .ok ⟨1, 1, 0⟩,
        ⟨.ok 0, rastEmpty⟩, fun _ => .error "no typesetter", recordEncode⟩
        "/tmp/a" 1 none =
      [.text ("Error: File not found at " ++ "/tmp/a")] ∧
    get_local_file_visual ⟨true, false, none, .ok "", .ok ⟨1, 1, 0⟩,
        ⟨.ok 0, rastEmpty⟩, fun _ => .error "no typesetter", recordEncode⟩
        "/tmp/a" 1 none =
      [.text ("Error: Path is not a file: " ++ "/tmp/a")] ∧
    get_local_file_visual ⟨true, true, some "application/zip", .ok "", .ok ⟨1, 1, 0⟩,
        ⟨.ok 0, rastEmpty⟩, fun _ => .error "no typesetter", recordEncode⟩
        "/tmp/a" 1 none =
      [.text ("Error: Unsupported file type '" ++
        guessedMime (some "application/zip") ++
        "'. Only PDF, Images, and HTML are supported for visual inspection.")] :=
  ⟨(dispatch_guard_errors ⟨false, true, none, .ok "", .ok ⟨1, 1, 0⟩,
      ⟨.ok 0, rastEmpty⟩, fun _ => .error "no typesetter", recordEncode⟩
      "/tmp/a" 1 none).1 rfl,
   (dispatch_guard_errors ⟨true, false, none, .ok "", .ok ⟨1, 1, 0⟩,
      ⟨.ok 0, rastEmpty⟩, fun _ => .error "no typesetter", recordEncode⟩
      "/tmp/a" 1 none).2.1 rfl rfl,
   (dispatch_guard_errors ⟨true, true, some "application/zip", .ok "", .ok ⟨1, 1, 0⟩,
      ⟨.ok 0, rastEmpty⟩, fun _ => .error "no typesetter", recordEncode⟩
      "/tmp/a" 1 none).2.2 rfl rfl (by decide) (by decide) (by decide)⟩
